import Mathlib

/-
Verification of the cuponera static file server (src/backend/app.py).

The server is a Flask application:

  app = Flask(__name__, static_folder="build", static_url_path="/")

with three sources of behaviour:
  * the `/` route (`index`), which calls `send_from_directory(static_folder, "index.html")`;
  * the `/health` route (`health`), which returns `jsonify(status="ok")`;
  * Flask's built-in static route `/<path:filename>` (because `static_url_path="/"`
    is right-stripped to the empty prefix), which serves files from the asset root
    through `send_from_directory`;
  * the 404 error handler (`spa_fallback`), invoked whenever routing or a handler
    raises `NotFound`; it re-serves `index.html` when it exists and otherwise
    returns a JSON error with status 404.

The embedding below models the filesystem as a finite association list from
canonical absolute paths (lists of path segments) to file contents, and models
the relevant Flask/Werkzeug machinery faithfully:
  * Werkzeug's `path` URL converter (regex `[^/].*?`): the static route matches
    exactly the paths `/<filename>` where `<filename>` is non-empty and does not
    begin with a slash;
  * Werkzeug's `safe_join`, used by `send_from_directory`: the filename is
    normalised with `posixpath.normpath`, then rejected when it is absolute,
    equal to `..`, or begins with `../`;
  * path resolution by the operating system (how `os.path.isfile`/`open` treat
    `.` and `..` segments) is modelled by `resolve`;
  * a Flask error handler's return value is converted to a response exactly like
    a view's return value: a `Response` object (as produced by
    `send_from_directory`, status 200) is passed through unchanged, and a
    `(dict, code)` tuple becomes a JSON response with the given status code.

Filesystem access is threaded state-passing style (each primitive returns the
world it was given, reflecting that the handlers only read), so that
statelessness of request handling is a provable statement rather than a
modelling assumption.
-/

namespace Cuponera

/-- HTTP response bodies, kept structural: a file's bytes, a JSON object with
string values (what `jsonify` / a dict return produce), or a plain error page. -/
inductive Body where
  | file : String → Body
  | jsonObj : List (String × String) → Body
  | page : String → Body
deriving DecidableEq, Repr

/-- An HTTP response: status code, mimetype, body. -/
structure Response where
  status : Nat
  mimetype : String
  body : Body
deriving DecidableEq, Repr

/-- The only HTTP error the handlers raise: `werkzeug.exceptions.NotFound`. -/
inductive HttpError where
  | notFound
deriving DecidableEq, Repr

/-- One step of resolving a path the way the operating system does: empty and
`.` segments are skipped, `..` pops the last segment (staying at the root when
there is nothing to pop), and any other segment is entered.  The accumulator
holds the resolved segments in reverse order. -/
def resolveStep (acc : List String) (c : String) : List String :=
  if c = "" then acc
  else if c = "." then acc
  else if c = ".." then acc.tail
  else c :: acc

/-- Resolve an absolute path, given as a list of segments, to its canonical
form (no empty, `.` or `..` segments). -/
def resolve (p : List String) : List String :=
  (p.foldl resolveStep []).reverse

/-- The filesystem: a finite map from canonical absolute paths to file
contents.  Directories are implicit; only regular files are recorded. -/
structure World where
  files : List (List String × String)
deriving DecidableEq, Repr

/-- Read the file at path `p` (the OS resolves `.` and `..` first). Models
`open(p).read()` and, via `isSome`, `os.path.exists` / `os.path.isfile`. -/
def World.read (w : World) (p : List String) : Option String :=
  List.lookup (resolve p) w.files

/-- Split a string on `/`, as Python's `str.split('/')` does (an empty string
yields one empty segment, adjacent slashes yield empty segments). -/
def splitSlashAux (cur : List Char) : List Char → List String
  | [] => [String.mk cur.reverse]
  | c :: cs =>
    if c = '/' then String.mk cur.reverse :: splitSlashAux [] cs
    else splitSlashAux (c :: cur) cs

/-- Segments of a path string. -/
def splitSlash (s : String) : List String :=
  splitSlashAux [] s.data

/-- Whether a path string is absolute (`posixpath.isabs`). -/
def strIsAbs (s : String) : Bool :=
  match s.data with
  | '/' :: _ => true
  | _ => false

/-- One step of `posixpath.normpath` on a relative path.  The state is the
number of leading `..` segments that could not be cancelled, together with the
other normalised segments in reverse order.  Empty and `.` segments are
dropped; `..` cancels the previous segment when there is one and otherwise
joins the leading run of `..`; other segments are kept. -/
def normStep (st : Nat × List String) (c : String) : Nat × List String :=
  if c = "" then st
  else if c = "." then st
  else if c = ".." then
    match st.2 with
    | [] => (st.1 + 1, [])
    | _ :: rest => (st.1, rest)
  else (st.1, c :: st.2)

/-- `posixpath.normpath` on a relative path: the number of leading `..`
segments of the result, and the remaining segments in order. -/
def normRel (f : String) : Nat × List String :=
  ((List.foldl normStep (0, []) (splitSlash f)).1,
   (List.foldl normStep (0, []) (splitSlash f)).2.reverse)

/-- Werkzeug's `safe_join(directory, filename)`, reduced to the relative
segments it appends to the directory.  `none` models `safe_join` returning
`None` (which `send_from_directory` turns into `NotFound`): the filename is
rejected when it is absolute, or when its normalisation is `..` or starts with
`../` (equivalently: at least one uncancelled leading `..` remains).  An empty
filename skips normalisation and joins to the directory itself. -/
def safeJoinRel (f : String) : Option (List String) :=
  if strIsAbs f then none
  else if f = "" then some []
  else if (normRel f).1 = 0 then some (normRel f).2 else none

/-- Mimetype guessed from the file extension (`mimetypes.guess_type`, with
`application/octet-stream` as `send_file`'s fallback for unknown extensions). -/
def guessMimetype (f : String) : String :=
  if List.isSuffixOf ".html".data f.data then "text/html"
  else if List.isSuffixOf ".js".data f.data then "text/javascript"
  else if List.isSuffixOf ".css".data f.data then "text/css"
  else if List.isSuffixOf ".json".data f.data then "application/json"
  else if List.isSuffixOf ".png".data f.data then "image/png"
  else if List.isSuffixOf ".svg".data f.data then "image/svg+xml"
  else "application/octet-stream"

/-- `flask.send_from_directory(directory, filename)`: join the filename safely
under the directory, raise `NotFound` when the join is rejected or no regular
file is there, and otherwise return the file's bytes with status 200 and the
extension-derived mimetype.  The world is threaded through and returned
unchanged: the call only reads the filesystem. -/
def send_from_directory (w : World) (root : List String) (f : String) :
    Except HttpError Response × World :=
  match safeJoinRel f with
  | none => (Except.error HttpError.notFound, w)
  | some segs =>
    match w.read (root ++ segs) with
    | none => (Except.error HttpError.notFound, w)
    | some c => (Except.ok ⟨200, guessMimetype f, Body.file c⟩, w)

/-- The `index` view (route `/`): `send_from_directory(app.static_folder, "index.html")`. -/
def index (w : World) (root : List String) : Except HttpError Response × World :=
  send_from_directory w root "index.html"

/-- The `health` view (route `/health`): `jsonify(status="ok")` — a JSON object
mapping `status` to `ok`, mimetype `application/json`, status 200. -/
def health : Response :=
  ⟨200, "application/json", Body.jsonObj [("status", "ok")]⟩

/-- The 404 error handler `spa_fallback`: if `<root>/index.html` exists,
return `send_from_directory(root, "index.html")` — Flask passes the returned
`Response` through unchanged, so its status is 200; should that call itself
raise (impossible here, kept for faithfulness), Flask would produce a 500.  If
`index.html` does not exist, return the dict mapping `error` to `not found`
with status 404, which Flask renders as a JSON response. -/
def spa_fallback (w : World) (root : List String) : Response × World :=
  if (w.read (root ++ ["index.html"])).isSome then
    match send_from_directory w root "index.html" with
    | (Except.ok r, w1) => (r, w1)
    | (Except.error _, w1) => (⟨500, "text/html", Body.page "Internal Server Error"⟩, w1)
  else
    (⟨404, "application/json", Body.jsonObj [("error", "not found")]⟩, w)

/-- Werkzeug's `path` URL converter on the static rule `/<path:filename>`
(the rule Flask registers for `static_url_path="/"`, which is right-stripped to
the empty prefix): the request path must start with `/` and the remainder must
be non-empty and not start with `/`.  Returns the captured filename. -/
def matchStatic (path : String) : Option String :=
  match path.data with
  | '/' :: c :: rest => if c = '/' then none else some (String.mk (c :: rest))
  | _ => none

/-- Werkzeug URL dispatch for the app's three rules.  Exact (converter-free)
rules match before the static `path` rule; a path matching no rule raises
`NotFound`. -/
def dispatch (w : World) (root : List String) (path : String) :
    Except HttpError Response × World :=
  if path = "/" then index w root
  else if path = "/health" then (Except.ok health, w)
  else
    match matchStatic path with
    | some f => send_from_directory w root f
    | none => (Except.error HttpError.notFound, w)

/-- Full request handling for a GET request: dispatch, and on `NotFound` run
the registered 404 error handler `spa_fallback`. -/
def serve (w : World) (root : List String) (path : String) : Response × World :=
  match dispatch w root path with
  | (Except.ok r, w1) => (r, w1)
  | (Except.error HttpError.notFound, w1) => spa_fallback w1 root

/-- The static resolution of a request path: the file (if any) that the
app's static route maps the path to — the `path` converter must match, the
captured filename must pass `safe_join`, and a regular file must exist at the
joined location.  This is what "the path resolves to an existing file under
the asset root" means for this app. -/
def staticLookup (w : World) (root : List String) (p : String) : Option String :=
  match matchStatic p with
  | none => none
  | some f =>
    match safeJoinRel f with
    | none => none
    | some segs => w.read (root ++ segs)

/-- A canonical path segment: non-empty and neither `.` nor `..`. -/
def canonSeg (s : String) : Bool :=
  !(s == "") && !(s == ".") && !(s == "..")

/-- A canonical path: every segment canonical. -/
def canonPath (p : List String) : Bool :=
  p.all canonSeg

/-- Python's `int(str)` on a decimal string: `digitVal` of one character. -/
def digitVal (c : Char) : Option Nat :=
  if c.isDigit then some (c.toNat - '0'.toNat) else none

/-- Digits possibly separated by single underscores (each underscore must sit
between two digits), accumulating the value.  Models the tail of CPython's
decimal-string parsing. -/
def parseDigitsAux : Nat → List Char → Option Nat
  | acc, [] => some acc
  | acc, c :: cs =>
    if c = '_' then
      match cs with
      | [] => none
      | d :: rest =>
        match digitVal d with
        | some v => parseDigitsAux (acc * 10 + v) rest
        | none => none
    else
      match digitVal c with
      | some v => parseDigitsAux (acc * 10 + v) cs
      | none => none

/-- A non-empty run of digits (with underscores between digits), starting with
a digit. -/
def parseUnsigned (l : List Char) : Option Nat :=
  match l with
  | [] => none
  | c :: cs =>
    match digitVal c with
    | some v => parseDigitsAux v cs
    | none => none

/-- Whitespace stripped by `int(str)`. -/
def isPySpace (c : Char) : Bool :=
  c = ' ' || c = '\t' || c = '\n' || c = '\r' || c = '\x0b' || c = '\x0c'

/-- Python's `int(s)` for a decimal string: strip surrounding whitespace,
allow one optional sign, then a non-empty digit run (underscores permitted
between digits).  `none` models `ValueError`. -/
def pyInt (s : String) : Option Int :=
  let l := ((s.data.dropWhile isPySpace).reverse.dropWhile isPySpace).reverse
  match l with
  | '+' :: rest => (parseUnsigned rest).map Int.ofNat
  | '-' :: rest => (parseUnsigned rest).map (fun n => -(n : Int))
  | _ => (parseUnsigned l).map Int.ofNat

/-- The run configuration produced by the `__main__` block. -/
structure ServerConfig where
  host : String
  port : Int
  debug : Bool
deriving DecidableEq, Repr

/-- The `__main__` block: `port = int(os.environ.get("PORT", 5001))` followed
by `app.run(host="0.0.0.0", port=port, debug=True)`.  When `PORT` is unset,
`os.environ.get` yields the default `5001`; when it is set to a string that
`int` cannot parse, the uncaught `ValueError` aborts startup before any bind. -/
def startup (envPort : Option String) : Except String ServerConfig :=
  match envPort with
  | none => Except.ok ⟨"0.0.0.0", 5001, true⟩
  | some s =>
    match pyInt s with
    | some n => Except.ok ⟨"0.0.0.0", n, true⟩
    | none => Except.error "ValueError"

/-- A sample asset root used by concrete witnesses and counterexamples. -/
def sampleRoot : List String := ["srv", "app", "build"]

/-- A sample filesystem: a populated asset root plus a file outside it. -/
def sampleWorld : World :=
  ⟨[(["srv", "app", "build", "index.html"], "<idx>"),
    (["srv", "app", "build", "main.js"], "console.log(1)"),
    (["srv", "app", "build", "assets", "logo.png"], "PNG"),
    (["etc", "passwd"], "root:x:0:0")]⟩

/-- A filesystem whose asset root has no `index.html` (only an outside file). -/
def bareWorld : World :=
  ⟨[(["etc", "passwd"], "root:x:0:0")]⟩

/-- A filesystem where the asset root contains a regular file named `health`
as well as `index.html`. -/
def healthFileWorld : World :=
  ⟨[(["srv", "app", "build", "health"], "health-file-bytes"),
    (["srv", "app", "build", "index.html"], "<idx>")]⟩

/-- Normalisation never produces an empty, `.` or `..` segment in the
non-`..` part of its state. -/
theorem foldl_normStep_canon (l : List String) :
    ∀ (up : Nat) (acc : List String), (∀ s ∈ acc, canonSeg s = true) →
      ∀ s ∈ (List.foldl normStep (up, acc) l).2, canonSeg s = true := by
  induction l with
  | nil => intro up acc h; exact h
  | cons c cs ih =>
    intro up acc h
    rw [List.foldl_cons]
    by_cases h1 : c = ""
    · rw [show normStep (up, acc) c = (up, acc) from by simp [normStep, h1]]
      exact ih up acc h
    by_cases h2 : c = "."
    · rw [show normStep (up, acc) c = (up, acc) from by simp [normStep, h1, h2]]
      exact ih up acc h
    by_cases h3 : c = ".."
    · cases acc with
      | nil =>
        rw [show normStep (up, ([] : List String)) c = (up + 1, []) from by
          simp [normStep, h1, h2, h3]]
        exact ih (up + 1) [] (fun s hs => absurd hs (List.not_mem_nil s))
      | cons a rest =>
        rw [show normStep (up, a :: rest) c = (up, rest) from by
          simp [normStep, h1, h2, h3]]
        exact ih up rest (fun s hs => h s (List.mem_cons_of_mem a hs))
    · rw [show normStep (up, acc) c = (up, c :: acc) from by simp [normStep, h1, h2, h3]]
      refine ih up (c :: acc) ?_
      intro s hs
      rcases List.mem_cons.mp hs with rfl | hs
      · simp [canonSeg, h1, h2, h3]
      · exact h s hs

/-- Every segment list accepted by `safe_join` consists of canonical
segments: no empty segment, no `.`, and in particular no `..`. -/
theorem safeJoinRel_canon {f : String} {segs : List String}
    (h : safeJoinRel f = some segs) : ∀ s ∈ segs, canonSeg s = true := by
  unfold safeJoinRel at h
  by_cases h1 : strIsAbs f = true
  · rw [if_pos h1] at h
    exact absurd h (by simp)
  rw [if_neg h1] at h
  by_cases h2 : f = ""
  · rw [if_pos h2] at h
    simp only [Option.some.injEq] at h
    subst h
    intro s hs
    exact absurd hs (List.not_mem_nil s)
  rw [if_neg h2] at h
  by_cases h3 : (normRel f).1 = 0
  · rw [if_pos h3] at h
    simp only [Option.some.injEq] at h
    subst h
    intro s hs
    unfold normRel at hs
    dsimp only at hs
    rw [List.mem_reverse] at hs
    exact foldl_normStep_canon (splitSlash f) 0 []
      (fun s hs => absurd hs (List.not_mem_nil s)) s hs
  · rw [if_neg h3] at h
    exact absurd h (by simp)

/-- The operating system's resolution of a path made of canonical segments
just walks into them. -/
theorem foldl_resolveStep_canon (l : List String) :
    ∀ acc, (∀ s ∈ l, canonSeg s = true) →
      List.foldl resolveStep acc l = l.reverse ++ acc := by
  induction l with
  | nil => intro acc _; simp
  | cons c cs ih =>
    intro acc h
    have hc : canonSeg c = true := h c (List.mem_cons_self c cs)
    simp only [canonSeg, Bool.and_eq_true, bne_iff_ne, ne_eq, Bool.not_eq_true',
      beq_eq_false_iff_ne] at hc
    obtain ⟨⟨hc1, hc2⟩, hc3⟩ := hc
    rw [List.foldl_cons,
      show resolveStep acc c = c :: acc from by simp [resolveStep, hc1, hc2, hc3],
      ih (c :: acc) (fun s hs => h s (List.mem_cons_of_mem c hs))]
    simp

/-- Appending canonical segments to a canonical root resolves to exactly
that concatenation: no escape is possible. -/
theorem resolve_append_canon {root segs : List String}
    (hroot : canonPath root = true) (hsegs : ∀ s ∈ segs, canonSeg s = true) :
    resolve (root ++ segs) = root ++ segs := by
  unfold resolve
  have hall : ∀ s ∈ root ++ segs, canonSeg s = true := by
    intro s hs
    rcases List.mem_append.mp hs with hs | hs
    · unfold canonPath at hroot
      rw [List.all_eq_true] at hroot
      exact hroot s hs
    · exact hsegs s hs
  rw [foldl_resolveStep_canon _ [] hall]
  simp

/-- `send_from_directory` only reads: the world comes back unchanged. -/
theorem send_from_directory_snd (w : World) (root : List String) (f : String) :
    (send_from_directory w root f).2 = w := by
  unfold send_from_directory
  cases safeJoinRel f with
  | none => rfl
  | some segs =>
    dsimp only
    cases World.read w (root ++ segs) with
    | none => rfl
    | some c => rfl

/-- The 404 handler only reads: the world comes back unchanged. -/
theorem spa_fallback_snd (w : World) (root : List String) :
    (spa_fallback w root).2 = w := by
  unfold spa_fallback
  have hs := send_from_directory_snd w root "index.html"
  by_cases hex : (World.read w (root ++ ["index.html"])).isSome = true
  · rw [if_pos hex]
    cases hsd : send_from_directory w root "index.html" with
    | mk e w1 =>
      rw [hsd] at hs
      cases e <;> simp_all
  · rw [if_neg hex]

/-- Dispatch only reads: the world comes back unchanged. -/
theorem dispatch_snd (w : World) (root : List String) (p : String) :
    (dispatch w root p).2 = w := by
  unfold dispatch
  by_cases h1 : p = "/"
  · rw [if_pos h1]
    exact send_from_directory_snd w root "index.html"
  rw [if_neg h1]
  by_cases h2 : p = "/health"
  · rw [if_pos h2]
  · rw [if_neg h2]
    cases matchStatic p with
    | some f => exact send_from_directory_snd w root f
    | none => rfl

/-- Request handling only reads: the world comes back unchanged. -/
theorem serve_snd (w : World) (root : List String) (p : String) :
    (serve w root p).2 = w := by
  unfold serve
  have hd := dispatch_snd w root p
  cases hdp : dispatch w root p with
  | mk e w1 =>
    rw [hdp] at hd
    cases e with
    | ok r => simpa using hd
    | error err =>
      cases err
      dsimp only
      rw [spa_fallback_snd]
      simpa using hd

/-- `safe_join` accepts the literal filename `index.html` unchanged. -/
theorem safeJoinRel_index : safeJoinRel "index.html" = some ["index.html"] := by decide

/-- The guessed mimetype of `index.html` is `text/html`. -/
theorem guessMimetype_index : guessMimetype "index.html" = "text/html" := by decide

/-- When `<root>/index.html` holds content `c`, serving it through
`send_from_directory` yields exactly that content, status 200, `text/html`. -/
theorem send_index {w : World} {root : List String} {c : String}
    (hidx : World.read w (root ++ ["index.html"]) = some c) :
    send_from_directory w root "index.html" =
      (Except.ok ⟨200, "text/html", Body.file c⟩, w) := by
  unfold send_from_directory
  rw [safeJoinRel_index]
  dsimp only
  rw [hidx, guessMimetype_index]

/-- When `<root>/index.html` is absent, `send_from_directory` raises
`NotFound` on it. -/
theorem send_index_absent {w : World} {root : List String}
    (hidx : World.read w (root ++ ["index.html"]) = none) :
    send_from_directory w root "index.html" =
      (Except.error HttpError.notFound, w) := by
  unfold send_from_directory
  rw [safeJoinRel_index]
  dsimp only
  rw [hidx]

/-- The 404 handler re-serves `index.html` with status 200 when it exists
(Flask passes the handler's `Response` through unchanged). -/
theorem spa_fallback_index {w : World} {root : List String} {c : String}
    (hidx : World.read w (root ++ ["index.html"]) = some c) :
    spa_fallback w root = (⟨200, "text/html", Body.file c⟩, w) := by
  unfold spa_fallback
  rw [hidx, send_index hidx]
  rfl

/-- The 404 handler returns the JSON error with status 404 when `index.html`
is absent. -/
theorem spa_fallback_absent {w : World} {root : List String}
    (hidx : World.read w (root ++ ["index.html"]) = none) :
    spa_fallback w root =
      (⟨404, "application/json", Body.jsonObj [("error", "not found")]⟩, w) := by
  unfold spa_fallback
  rw [hidx]
  rfl

/-- A path matched by the static rule's converter is not the root path. -/
theorem matchStatic_ne_slash {p f : String} (h : matchStatic p = some f) :
    p ≠ "/" := by
  intro hp
  rw [hp, show matchStatic "/" = none from by decide] at h
  exact Option.noConfusion h

/-- When the static resolution of a matched path finds no file, the
corresponding `send_from_directory` call raises `NotFound`. -/
theorem send_error_of_staticLookup_none {w : World} {root : List String}
    {p f : String} (hm : matchStatic p = some f)
    (hns : staticLookup w root p = none) :
    send_from_directory w root f = (Except.error HttpError.notFound, w) := by
  unfold staticLookup at hns
  rw [hm] at hns
  dsimp only at hns
  unfold send_from_directory
  cases hsj : safeJoinRel f with
  | none => rfl
  | some segs =>
    rw [hsj] at hns
    dsimp only at hns
    dsimp only
    rw [hns]

/-- A successful `send_from_directory` response carries the bytes of a file
whose canonical path lies under the directory it was given. -/
theorem send_from_directory_ok {w : World} {root : List String} {f : String}
    {r : Response} {w' : World} (hroot : canonPath root = true)
    (h : send_from_directory w root f = (Except.ok r, w')) :
    ∃ c k, r = ⟨200, guessMimetype f, Body.file c⟩ ∧ root <+: k ∧
      List.lookup k w.files = some c := by
  unfold send_from_directory at h
  cases hsj : safeJoinRel f with
  | none =>
    rw [hsj] at h
    exact absurd h (by simp)
  | some segs =>
    rw [hsj] at h
    dsimp only at h
    cases hrd : World.read w (root ++ segs) with
    | none =>
      rw [hrd] at h
      exact absurd h (by simp)
    | some c =>
      rw [hrd] at h
      dsimp only at h
      simp only [Prod.mk.injEq, Except.ok.injEq] at h
      obtain ⟨hr, hw⟩ := h
      refine ⟨c, root ++ segs, hr.symm, ⟨segs, rfl⟩, ?_⟩
      unfold World.read at hrd
      rw [resolve_append_canon hroot (safeJoinRel_canon hsj)] at hrd
      exact hrd

/-- Any file body produced by the 404 handler is the content of a file whose
canonical path lies under the asset root. -/
theorem spa_fallback_file {w : World} {root : List String} {c : String}
    (hroot : canonPath root = true)
    (h : (spa_fallback w root).1.body = Body.file c) :
    ∃ k, root <+: k ∧ List.lookup k w.files = some c := by
  unfold spa_fallback at h
  by_cases hex : (World.read w (root ++ ["index.html"])).isSome = true
  · rw [if_pos hex] at h
    cases hsd : send_from_directory w root "index.html" with
    | mk e w1 =>
      rw [hsd] at h
      cases e with
      | ok r =>
        dsimp only at h
        obtain ⟨c', k, hr, hpre, hlk⟩ := send_from_directory_ok hroot hsd
        rw [hr] at h
        dsimp only at h
        injection h with h
        subst h
        exact ⟨k, hpre, hlk⟩
      | error err =>
        dsimp only at h
        exact absurd h (by simp)
  · rw [if_neg hex] at h
    dsimp only at h
    exact absurd h (by simp)

/-- Inversion of dispatch: a response delivered without the error handler is
either the health response or a successful `send_from_directory`. -/
theorem dispatch_ok {w : World} {root : List String} {p : String}
    {r : Response} {w' : World}
    (h : dispatch w root p = (Except.ok r, w')) :
    r = health ∨ ∃ f, send_from_directory w root f = (Except.ok r, w') := by
  unfold dispatch at h
  by_cases h1 : p = "/"
  · rw [if_pos h1] at h
    exact Or.inr ⟨"index.html", h⟩
  rw [if_neg h1] at h
  by_cases h2 : p = "/health"
  · rw [if_pos h2] at h
    simp only [Prod.mk.injEq, Except.ok.injEq] at h
    exact Or.inl h.1.symm
  rw [if_neg h2] at h
  cases hm : matchStatic p with
  | some f =>
    rw [hm] at h
    exact Or.inr ⟨f, h⟩
  | none =>
    rw [hm] at h
    exact absurd h (by simp)

/-- C1 (amended): for every GET request to a path other than /health that does
not resolve to an existing file under the asset root, when index.html exists
under the asset root the response body is the index document's bytes — but the
response status is 200, not 404: Flask passes the error handler's Response
through unchanged, so the 404 status of the triggering error is replaced by
the 200 of the freshly built index response. -/
theorem fallback_serves_index (w : World) (root : List String) (p : String)
    (c : String) (hp : p ≠ "/health")
    (hns : staticLookup w root p = none)
    (hidx : World.read w (root ++ ["index.html"]) = some c) :
    (serve w root p).1.status = 200 ∧ (serve w root p).1.body = Body.file c := by
  have hfb := spa_fallback_index hidx
  have hd : dispatch w root p = (Except.ok ⟨200, "text/html", Body.file c⟩, w) ∨
      dispatch w root p = (Except.error HttpError.notFound, w) := by
    unfold dispatch
    by_cases h1 : p = "/"
    · rw [if_pos h1]
      exact Or.inl (send_index hidx)
    rw [if_neg h1, if_neg hp]
    cases hm : matchStatic p with
    | none => exact Or.inr rfl
    | some f => exact Or.inr (send_error_of_staticLookup_none hm hns)
  unfold serve
  rcases hd with hd | hd <;> rw [hd]
  · exact ⟨rfl, rfl⟩
  · dsimp only
    rw [hfb]
    exact ⟨rfl, rfl⟩

/-- C1 witness: a concrete unmatched path with index.html present is answered
with the index bytes and status 200. -/
theorem fallback_serves_index_witness :
    (serve sampleWorld sampleRoot "/does-not-exist").1.status = 200 ∧
      (serve sampleWorld sampleRoot "/does-not-exist").1.body = Body.file "<idx>" :=
  fallback_serves_index sampleWorld sampleRoot "/does-not-exist" "<idx>"
    (by decide) (by decide) (by decide)

/-- C1 counterexample: with index.html present, the unmatched path
/does-not-exist is answered with status 200, not the claimed 404; moreover the
non-resolving path /health is answered with the health JSON, not the index
bytes, so the claim also fails at /health. -/
theorem fallback_404_counterexample :
    staticLookup sampleWorld sampleRoot "/does-not-exist" = none ∧
      (World.read sampleWorld (sampleRoot ++ ["index.html"])).isSome = true ∧
      (serve sampleWorld sampleRoot "/does-not-exist").1.status ≠ 404 ∧
      staticLookup sampleWorld sampleRoot "/health" = none ∧
      (serve sampleWorld sampleRoot "/health").1.body ≠ Body.file "<idx>" := by
  decide

/-- C2: for every request path — traversal-style inputs included — any file
content appearing in the response body is the content of a file whose
canonical path lies under the asset root: path resolution cannot escape a
canonical asset root. -/
theorem no_escape (w : World) (root : List String) (p : String) (c : String)
    (hroot : canonPath root = true)
    (h : (serve w root p).1.body = Body.file c) :
    ∃ k, root <+: k ∧ List.lookup k w.files = some c := by
  unfold serve at h
  cases hdp : dispatch w root p with
  | mk e w1 =>
    rw [hdp] at h
    have hw1 : w1 = w := by
      have hd := dispatch_snd w root p
      rw [hdp] at hd
      exact hd
    subst hw1
    cases e with
    | ok r =>
      dsimp only at h
      rcases dispatch_ok hdp with hr | ⟨f, hsend⟩
      · subst hr
        exact absurd h (by simp [health])
      · obtain ⟨c', k, hr, hpre, hlk⟩ := send_from_directory_ok hroot hsend
        rw [hr] at h
        dsimp only at h
        injection h with h
        subst h
        exact ⟨k, hpre, hlk⟩
    | error err =>
      cases err
      dsimp only at h
      exact spa_fallback_file hroot h

/-- C2 witness: the traversal-style request /../../etc/passwd does not leak
the outside file; the only file content it can return is stored under the
asset root (it is the index document). -/
theorem no_escape_witness :
    ∃ k, sampleRoot <+: k ∧ List.lookup k sampleWorld.files = some "<idx>" :=
  no_escape sampleWorld sampleRoot "/../../etc/passwd" "<idx>"
    (by decide) (by decide)

/-- C3 (amended): every request path other than /health that resolves to an
existing file under the asset root is answered with that file's exact bytes
and status 200.  The exact path /health is shadowed by the health route, so a
file named health at the asset root's top level is not reachable there. -/
theorem static_file_served (w : World) (root : List String) (p : String)
    (c : String) (hp : p ≠ "/health")
    (h : staticLookup w root p = some c) :
    (serve w root p).1.status = 200 ∧ (serve w root p).1.body = Body.file c := by
  unfold staticLookup at h
  cases hm : matchStatic p with
  | none =>
    rw [hm] at h
    exact absurd h (by simp)
  | some f =>
    rw [hm] at h
    dsimp only at h
    cases hsj : safeJoinRel f with
    | none =>
      rw [hsj] at h
      exact absurd h (by simp)
    | some segs =>
      rw [hsj] at h
      dsimp only at h
      have hsend : send_from_directory w root f =
          (Except.ok ⟨200, guessMimetype f, Body.file c⟩, w) := by
        unfold send_from_directory
        rw [hsj]
        dsimp only
        rw [h]
      unfold serve dispatch
      rw [if_neg (matchStatic_ne_slash hm), if_neg hp, hm]
      dsimp only
      rw [hsend]
      exact ⟨rfl, rfl⟩

/-- C3 witness: a concrete static file is served byte-exactly with 200. -/
theorem static_file_served_witness :
    (serve sampleWorld sampleRoot "/main.js").1.status = 200 ∧
      (serve sampleWorld sampleRoot "/main.js").1.body =
        Body.file "console.log(1)" :=
  static_file_served sampleWorld sampleRoot "/main.js" "console.log(1)"
    (by decide) (by decide)

/-- C3 counterexample: when a regular file named health exists under the
asset root, the path /health resolves to it, yet the response body is the
health JSON rather than that file's bytes. -/
theorem static_health_counterexample :
    staticLookup healthFileWorld sampleRoot "/health" = some "health-file-bytes" ∧
      (serve healthFileWorld sampleRoot "/health").1.body ≠
        Body.file "health-file-bytes" := by
  decide

/-- C4: GET /health always returns exactly the JSON object mapping status to
ok, with mimetype application/json and status 200, for every asset root and
every filesystem state, and leaves the world unchanged (no side effects). -/
theorem health_ok (w : World) (root : List String) :
    serve w root "/health" =
      (⟨200, "application/json", Body.jsonObj [("status", "ok")]⟩, w) := rfl

/-- C5: GET / when index.html exists under the asset root returns that file's
content with mimetype text/html and status 200. -/
theorem index_served (w : World) (root : List String) (c : String)
    (hidx : World.read w (root ++ ["index.html"]) = some c) :
    serve w root "/" = (⟨200, "text/html", Body.file c⟩, w) := by
  unfold serve dispatch
  rw [if_pos rfl]
  unfold index
  rw [send_index hidx]

/-- C5 witness: the sample index.html is served at the root path. -/
theorem index_served_witness :
    serve sampleWorld sampleRoot "/" =
      (⟨200, "text/html", Body.file "<idx>"⟩, sampleWorld) :=
  index_served sampleWorld sampleRoot "<idx>" (by decide)

/-- C6 (amended): for every GET request to a path other than /health that does
not resolve to an existing file under the asset root, when index.html is
absent the response is the JSON object mapping error to not found, with
status 404. -/
theorem fallback_error (w : World) (root : List String) (p : String)
    (hp : p ≠ "/health")
    (hns : staticLookup w root p = none)
    (hidx : World.read w (root ++ ["index.html"]) = none) :
    (serve w root p).1 =
      ⟨404, "application/json", Body.jsonObj [("error", "not found")]⟩ := by
  have hfb := spa_fallback_absent hidx
  unfold serve dispatch
  by_cases h1 : p = "/"
  · subst h1
    rw [if_pos rfl]
    unfold index
    rw [send_index_absent hidx]
    dsimp only
    rw [hfb]
  · rw [if_neg h1, if_neg hp]
    cases hm : matchStatic p with
    | none =>
      dsimp only
      rw [hfb]
    | some f =>
      dsimp only
      rw [send_error_of_staticLookup_none hm hns]
      dsimp only
      rw [hfb]

/-- C6 witness: a concrete unmatched path with no index.html gets the JSON
not-found body with status 404. -/
theorem fallback_error_witness :
    (serve bareWorld sampleRoot "/nope").1 =
      ⟨404, "application/json", Body.jsonObj [("error", "not found")]⟩ :=
  fallback_error bareWorld sampleRoot "/nope" (by decide) (by decide) (by decide)

/-- C6 counterexample: the path /health does not resolve to a file and
index.html is absent, yet the response is the health JSON with status 200,
not the claimed not-found JSON with status 404. -/
theorem fallback_health_counterexample :
    staticLookup bareWorld sampleRoot "/health" = none ∧
      World.read bareWorld (sampleRoot ++ ["index.html"]) = none ∧
      (serve bareWorld sampleRoot "/health").1 ≠
        ⟨404, "application/json", Body.jsonObj [("error", "not found")]⟩ := by
  decide

/-- C7: GET / when index.html is absent returns status 404 — the NotFound
raised inside the index view reaches the 404 handler, which finds no
index.html and answers with the 404 JSON error. -/
theorem index_missing_404 (w : World) (root : List String)
    (hidx : World.read w (root ++ ["index.html"]) = none) :
    (serve w root "/").1.status = 404 := by
  unfold serve dispatch
  rw [if_pos rfl]
  unfold index
  rw [send_index_absent hidx]
  dsimp only
  rw [spa_fallback_absent hidx]

/-- C7 witness: with the sample world lacking index.html, GET / is a 404. -/
theorem index_missing_404_witness :
    (serve bareWorld sampleRoot "/").1.status = 404 :=
  index_missing_404 bareWorld sampleRoot (by decide)

/-- C8: request handling is stateless and idempotent — serving any GET
request leaves the filesystem unchanged, and serving the same request again
from the state left by the first yields the identical response and state. -/
theorem serve_idempotent (w : World) (root : List String) (p : String) :
    (serve w root p).2 = w ∧
      serve (serve w root p).2 root p = serve w root p := by
  refine ⟨serve_snd w root p, ?_⟩
  rw [serve_snd w root p]

/-- C9: at startup the bound port is the integer value of the PORT
environment variable when it is set to a parseable integer, and 5001 when it
is unset; the bind address is 0.0.0.0 in both cases. -/
theorem startup_binding (env : Option String) :
    (env = none → startup env = Except.ok ⟨"0.0.0.0", 5001, true⟩) ∧
      (∀ s n, env = some s → pyInt s = some n →
        startup env = Except.ok ⟨"0.0.0.0", n, true⟩) := by
  constructor
  · intro h
    subst h
    rfl
  · intro s n hs hpar
    subst hs
    unfold startup
    dsimp only
    rw [hpar]

/-- C9 witness: with PORT unset the server binds 0.0.0.0:5001, and with
PORT set to 8080 it binds 0.0.0.0:8080. -/
theorem startup_binding_witness :
    startup none = Except.ok ⟨"0.0.0.0", 5001, true⟩ ∧
      startup (some "8080") = Except.ok ⟨"0.0.0.0", 8080, true⟩ :=
  ⟨(startup_binding none).1 rfl,
   (startup_binding (some "8080")).2 "8080" 8080 rfl (by decide)⟩

/-- C10: when PORT is set to a string that is not a valid decimal integer,
the int conversion raises ValueError and startup aborts before any bind — no
configuration with the default port is produced. -/
theorem startup_invalid_port (s : String) (h : pyInt s = none) :
    startup (some s) = Except.error "ValueError" := by
  unfold startup
  dsimp only
  rw [h]

/-- C10 witness: PORT set to abc aborts startup with ValueError. -/
theorem startup_invalid_port_witness :
    startup (some "abc") = Except.error "ValueError" :=
  startup_invalid_port "abc" (by decide)

end Cuponera
